import Mathlib

/-!
Shallow embedding of the Bank Nifty tracker server (`server.js`) together
with proofs about its market-data aggregation, persistence, session and
logging logic.

JavaScript values flowing through the quote-merging code are modelled by
`JsVal` (undefined, null, NaN, rational numbers, strings) with explicit JS
truthiness, `||`, `&&` and numeric multiplication.  Mutable JS objects (the
multiplier map, the batch map) are modelled as insertion-ordered association
lists with JS assignment semantics (`setA`).  Each network call's outcome is
an explicit environment parameter; `none` stands for a request that threw or
returned no usable payload.
-/

namespace BankNifty

/-- A JavaScript value as it appears in the quote-merging code: `undefined`,
`null`, `NaN`, a finite number (modelled as a rational) or a string. -/
inductive JsVal where
  | undefined
  | null
  | nan
  | num (q : ℚ)
  | str (s : String)
  deriving DecidableEq, Repr

/-- JS truthiness: `0`, `""`, `null`, `undefined` and `NaN` are falsy. -/
def JsVal.truthy : JsVal → Bool
  | .num q => q != 0
  | .str s => s != ""
  | _ => false

/-- JS `a || b`: `a` when `a` is truthy, otherwise `b`. -/
def jsOr (a b : JsVal) : JsVal := if a.truthy then a else b

/-- JS `a && b`: `b` when `a` is truthy, otherwise `a`. -/
def jsAnd (a b : JsVal) : JsVal := if a.truthy then b else a

/-- JS numeric coercion as used by `*`: `null → 0`, `undefined`/`NaN` → NaN
(`none`).  String-to-number coercion never arises on the fields the server
multiplies (they are numbers, `null` or `undefined` in every payload the
fetcher builds), so a string is conservatively sent to NaN as well. -/
def JsVal.toNum : JsVal → Option ℚ
  | .null => some 0
  | .num q => some q
  | _ => none

/-- JS multiplication on `JsVal`. -/
def jsMul (a b : JsVal) : JsVal :=
  match a.toNum, b.toNum with
  | some x, some y => .num (x * y)
  | _, _ => .nan

/-- JS object property write `m[k] = v` on an insertion-ordered object:
replace the binding of `k` if present, otherwise append a new binding. -/
def setA {α : Type} : List (String × α) → String → α → List (String × α)
  | [], k, v => [(k, v)]
  | p :: m, k, v => if p.1 = k then (k, v) :: m else p :: setA m k v

theorem lookup_setA_self {α : Type} (m : List (String × α)) (k : String) (v : α) :
    (setA m k v).lookup k = some v := by
  induction m with
  | nil => simp [setA, List.lookup]
  | cons p m ih =>
      by_cases h : p.1 = k
      · simp [setA, h, List.lookup]
      · simp only [setA, h, if_false, List.lookup]
        have : (k == p.1) = false := by
          simp [beq_iff_eq]
          exact fun hk => h hk.symm
        simp [this, ih]

theorem lookup_setA_ne {α : Type} (m : List (String × α)) (k k' : String) (v : α)
    (hne : k' ≠ k) : (setA m k v).lookup k' = m.lookup k' := by
  have hb : (k' == k) = false := by simp [beq_iff_eq, hne]
  induction m with
  | nil => simp [setA, List.lookup, hb]
  | cons p m ih =>
      by_cases h : p.1 = k
      · subst h
        simp [setA, List.lookup, hb]
      · simp only [setA, h, if_false, List.lookup]
        by_cases hk : k' = p.1
        · simp [hk]
        · have h1 : (k' == p.1) = false := by simp [beq_iff_eq, hk]
          simp [h1, ih]

/-- The multiplier map `stockMultipliers`: symbol to non-negative number. -/
abbrev MultMap := List (String × ℚ)

/-- Truthiness of `stockMultipliers[k]`: `!stockMultipliers[k]` holds exactly
when the key is absent or holds `0`. -/
def truthyAt (m : MultMap) (k : String) : Bool :=
  match m.lookup k with
  | some q => q != 0
  | none => false

/-- Body of the default-multiplier loops:
`if (!stockMultipliers[sym]) stockMultipliers[sym] = 1`. -/
def ensureDefault (m : MultMap) (sym : String) : MultMap :=
  if truthyAt m sym then m else setA m sym 1

/-- The default-multiplier loop over a list of symbols. -/
def ensureDefaults (m : MultMap) (syms : List String) : MultMap :=
  syms.foldl ensureDefault m

theorem lookup_ensureDefault_ne (m : MultMap) (sym k : String) (hne : k ≠ sym) :
    (ensureDefault m sym).lookup k = m.lookup k := by
  unfold ensureDefault
  by_cases h : truthyAt m sym
  · simp [h]
  · simp [h, lookup_setA_ne m sym k 1 hne]

theorem lookup_ensureDefault_self (m : MultMap) (k : String)
    (h : truthyAt m k = false) : (ensureDefault m k).lookup k = some 1 := by
  simp [ensureDefault, h, lookup_setA_self]

theorem lookup_ensureDefaults_preserved (syms : List String) (m : MultMap)
    (k : String) (q : ℚ) (hq : q ≠ 0) (h : m.lookup k = some q) :
    (ensureDefaults m syms).lookup k = some q := by
  induction syms generalizing m with
  | nil => simpa [ensureDefaults] using h
  | cons s syms ih =>
      show (ensureDefaults (ensureDefault m s) syms).lookup k = some q
      apply ih
      by_cases hs : k = s
      · subst hs
        have ht : truthyAt m k = true := by simp [truthyAt, h, hq]
        simpa [ensureDefault, ht] using h
      · rw [lookup_ensureDefault_ne m s k hs]
        exact h

theorem lookup_ensureDefaults_of_mem (syms : List String) (m : MultMap)
    (k : String) (hk : k ∈ syms) (h : truthyAt m k = false) :
    (ensureDefaults m syms).lookup k = some 1 := by
  induction syms generalizing m with
  | nil => cases hk
  | cons s syms ih =>
      show (ensureDefaults (ensureDefault m s) syms).lookup k = some 1
      by_cases hs : k = s
      · subst hs
        exact lookup_ensureDefaults_preserved syms _ k 1 one_ne_zero
          (lookup_ensureDefault_self m k h)
      · have hk' : k ∈ syms := by
          cases hk with
          | head => exact absurd rfl hs
          | tail _ h' => exact h'
        apply ih _ hk'
        simp [truthyAt, lookup_ensureDefault_ne m s k hs]
        have := h
        simp [truthyAt] at this
        cases hm : m.lookup k with
        | none => simp
        | some q =>
            simp
            rw [hm] at this
            simpa using this

/-! ## Historical logger (`logHistoricalData`, lines 1060-1085)

One logged data point and the append-and-trim step applied to the parsed
Redis log array: `logs.push(dataPoint); if (logs.length > maxLogs) logs =
logs.slice(-maxLogs)` with `maxLogs = 1000`. -/

structure HistPoint where
  timestamp : String
  bankNiftyIndex : ℚ
  calculatedTotal : ℚ
  difference : ℚ
  percentageDiff : String
  deriving DecidableEq, Repr

def maxLogs : ℕ := 1000

/-- The append `logs.push(dataPoint)` followed by the trim to the last `maxLogs`
entries (`logs.slice(-maxLogs)`). -/
def appendHistoricalPoint (logs : List HistPoint) (p : HistPoint) : List HistPoint :=
  let l := logs ++ [p]
  if maxLogs < l.length then l.drop (l.length - maxLogs) else l

/-- Claim C6: after any append performed by the historical logger the log
length is at most 1000, and appending a point to a log already holding 1000
points evicts exactly the oldest point, keeping the 1000 most recent points
in order. -/
theorem C6_log_ring_buffer (logs : List HistPoint) (p : HistPoint) :
    maxLogs = 1000
    ∧ (appendHistoricalPoint logs p).length ≤ 1000
    ∧ (logs.length = 1000 → appendHistoricalPoint logs p = logs.tail ++ [p]) := by
  refine ⟨rfl, ?_, ?_⟩
  · unfold appendHistoricalPoint maxLogs
    by_cases h : 1000 < (logs ++ [p]).length
    · simp only [h, if_true, List.length_drop]
      omega
    · simp only [h, if_false]
      omega
  · intro hlen
    show (if maxLogs < (logs ++ [p]).length then
            (logs ++ [p]).drop ((logs ++ [p]).length - maxLogs)
          else (logs ++ [p])) = logs.tail ++ [p]
    have hlen' : (logs ++ [p]).length = 1001 := by simp [hlen]
    rw [hlen']
    norm_num [maxLogs]
    cases logs with
    | nil => simp at hlen
    | cons a l => simp

def demoPoint : HistPoint :=
  ⟨"2024-01-01T09:15:00.000Z", 48000, 47950, -50, "-0.1042"⟩

def demoPoint2 : HistPoint :=
  ⟨"2024-01-01T09:20:00.000Z", 48010, 48000, -10, "-0.0208"⟩

theorem C6_log_ring_buffer_witness :
    (List.replicate 1000 demoPoint).length = 1000
    ∧ appendHistoricalPoint (List.replicate 1000 demoPoint) demoPoint2
        = (List.replicate 1000 demoPoint).tail ++ [demoPoint2] := by
  have h : (List.replicate 1000 demoPoint).length = 1000 :=
    List.length_replicate _ _
  exact ⟨h, (C6_log_ring_buffer (List.replicate 1000 demoPoint) demoPoint2).2.2 h⟩

/-! ## NSE session manager (`getNSESession`, lines 1112-1152)

State: module-level `nseCookies` (initially `null`) and `nseSessionExpiry`
(initially `0`, a millisecond timestamp).  The single handshake attempt's
outcome is the `handshake` parameter: `none` when the request threw or the
response carried no `set-cookie` header, `some setCookies` otherwise. -/

structure SessionState where
  nseCookies : Option String
  nseSessionExpiry : ℤ
  deriving DecidableEq, Repr

/-- JS truthiness of the `nseCookies` variable (`null` and `""` are falsy). -/
def cookiesTruthy : Option String → Bool
  | some c => c != ""
  | none => false

/-- Cookie extraction: keep the part of each set-cookie entry before the
first semicolon and join the parts with a separator. -/
def cookieHeaderJoin (setCookies : List String) : String :=
  String.intercalate "; " (setCookies.map (fun c => (c.splitOn ";").headD ""))

/-- Session acquisition `getNSESession`: return the cached cookies when still valid, otherwise
perform exactly one handshake; on success store the joined cookies with
expiry `now + 15` minutes (in milliseconds) and return them, on failure
return `null` leaving the state unchanged. -/
def getNSESession (st : SessionState) (now : ℤ) (handshake : Option (List String)) :
    Option String × SessionState :=
  if cookiesTruthy st.nseCookies && decide (now < st.nseSessionExpiry) then
    (st.nseCookies, st)
  else
    match handshake with
    | some setCookies =>
        let cookies := cookieHeaderJoin setCookies
        (some cookies, ⟨some cookies, now + 15 * 60 * 1000⟩)
    | none => (none, st)

/-- Claim C8: a cached, unexpired token is returned with no handshake (the
result does not depend on the handshake outcome); otherwise the single
handshake attempt either stores and returns cookies whose expiry lies
exactly 15 minutes (900000 ms) in the future, or returns `null` leaving the
state unchanged. -/
theorem C8_session_manager (st : SessionState) (now : ℤ)
    (handshake : Option (List String)) :
    (cookiesTruthy st.nseCookies = true → now < st.nseSessionExpiry →
        getNSESession st now handshake = (st.nseCookies, st))
    ∧ (cookiesTruthy st.nseCookies = false ∨ st.nseSessionExpiry ≤ now →
        (∀ sc, handshake = some sc →
            getNSESession st now handshake
              = (some (cookieHeaderJoin sc),
                 ⟨some (cookieHeaderJoin sc), now + 15 * 60 * 1000⟩))
        ∧ (handshake = none → getNSESession st now handshake = (none, st))) := by
  constructor
  · intro h1 h2
    simp [getNSESession, h1, h2]
  · intro hcond
    have hfalse : (cookiesTruthy st.nseCookies && decide (now < st.nseSessionExpiry)) = false := by
      cases hcond with
      | inl h => simp [h]
      | inr h =>
          have : ¬ now < st.nseSessionExpiry := not_lt.mpr h
          simp [this]
    constructor
    · intro sc hsc
      subst hsc
      simp [getNSESession, hfalse]
    · intro hn
      subst hn
      simp [getNSESession, hfalse]

theorem C8_session_manager_witness :
    getNSESession ⟨some "nsit=abc", 1000⟩ 500 none
        = (some "nsit=abc", ⟨some "nsit=abc", 1000⟩)
    ∧ getNSESession ⟨none, 0⟩ 500 (some ["nsit=x; Path=/", "bm=y; Secure"])
        = (some (cookieHeaderJoin ["nsit=x; Path=/", "bm=y; Secure"]),
           ⟨some (cookieHeaderJoin ["nsit=x; Path=/", "bm=y; Secure"]), 500 + 15 * 60 * 1000⟩)
    ∧ getNSESession ⟨none, 0⟩ 500 none = (none, ⟨none, 0⟩) := by
  refine ⟨?_, ?_, ?_⟩
  · exact (C8_session_manager ⟨some "nsit=abc", 1000⟩ 500 none).1 (by decide) (by norm_num)
  · exact ((C8_session_manager ⟨none, 0⟩ 500 (some ["nsit=x; Path=/", "bm=y; Secure"])).2
      (Or.inr (by norm_num))).1 _ rfl
  · exact ((C8_session_manager ⟨none, 0⟩ 500 none).2 (Or.inr (by norm_num))).2 rfl

/-! ## Multiplier persistence (`loadFromRedis`, `loadFromFile`, `saveToFile`)

In-memory metadata is `multipliersMetadata = { lastSaved, pin }`.  A loaded
metadata document may carry either field or not; `lastSavedField = some none`
models a present `lastSaved: null`. -/

structure Metadata where
  lastSaved : Option String
  pin : String
  deriving DecidableEq, Repr

structure MetaDoc where
  lastSavedField : Option (Option String)
  pinField : Option String
  deriving DecidableEq, Repr

/-- The object spread `{ ...multipliersMetadata, ...loadedMetadata }`
restricted to the two fields the server ever reads. -/
def mergeMeta (cur : Metadata) (doc : MetaDoc) : Metadata :=
  { lastSaved := doc.lastSavedField.getD cur.lastSaved,
    pin := doc.pinField.getD cur.pin }

/-- Environment override `if (envPin) multipliersMetadata.pin = envPin`; an empty configured PIN
is falsy in JS, hence modelled as `none`. -/
def applyEnvPin (envPin : Option String) (m : Metadata) : Metadata :=
  match envPin with
  | some p => { m with pin := p }
  | none => m

/-- Module-level initial state `{ lastSaved: null, pin: "1234" }` followed by
the top-level environment override (server.js line 791). -/
def initialMetadata (envPin : Option String) : Metadata :=
  applyEnvPin envPin { lastSaved := none, pin := "1234" }

/-- Remote load `loadFromRedis`: `redisResult = none` models `!redis` or a thrown
request (return value `false`); otherwise the two stored documents, each
possibly absent. -/
def loadFromRedis (cur : MultMap × Metadata) (envPin : Option String)
    (redisResult : Option (Option MultMap × Option MetaDoc)) :
    Bool × MultMap × Metadata :=
  match redisResult with
  | none => (false, cur)
  | some (rm, rmeta) =>
      let mults := rm.getD cur.1
      let meta :=
        match rmeta with
        | some doc => applyEnvPin envPin (mergeMeta cur.2 doc)
        | none => cur.2
      (true, mults, meta)

/-- Local load `loadFromFile`: each file is either absent or unparsable (`none`) or a
parsed document. -/
def loadFromFile (cur : MultMap × Metadata) (envPin : Option String)
    (fileMults : Option MultMap) (fileMeta : Option MetaDoc) :
    MultMap × Metadata :=
  let mults := fileMults.getD cur.1
  let meta :=
    match fileMeta with
    | some doc => applyEnvPin envPin (mergeMeta cur.2 doc)
    | none => cur.2
  (mults, meta)

/-- The load sequence in `startServer`: Redis first, file fallback when it
reports failure, starting from the module-level initial state. -/
def loadAll (envPin : Option String)
    (redisResult : Option (Option MultMap × Option MetaDoc))
    (fileMults : Option MultMap) (fileMeta : Option MetaDoc) :
    MultMap × Metadata :=
  let cur : MultMap × Metadata := ([], initialMetadata envPin)
  match loadFromRedis cur envPin redisResult with
  | (true, st) => st
  | (false, _) => loadFromFile cur envPin fileMults fileMeta

/-- Claim C4: whatever either backend holds, after the load sequence the
effective PIN equals the externally configured PIN whenever one is
configured, on every load path (Redis, file fallback, neither). -/
theorem C4_env_pin_precedence (p : String)
    (redisResult : Option (Option MultMap × Option MetaDoc))
    (fileMults : Option MultMap) (fileMeta : Option MetaDoc) :
    (loadAll (some p) redisResult fileMults fileMeta).2.pin = p := by
  cases redisResult with
  | none =>
      cases fileMeta with
      | none => simp [loadAll, loadFromRedis, loadFromFile, initialMetadata, applyEnvPin]
      | some doc => simp [loadAll, loadFromRedis, loadFromFile, initialMetadata, applyEnvPin]
  | some r =>
      obtain ⟨rm, rmeta⟩ := r
      cases rmeta with
      | none => simp [loadAll, loadFromRedis, initialMetadata, applyEnvPin]
      | some doc => simp [loadAll, loadFromRedis, initialMetadata, applyEnvPin]

/-- Claim C4 witness: persisted PIN `"9999"` with configured PIN `"4321"`
yields effective PIN `"4321"`. -/
theorem C4_env_pin_precedence_witness :
    (loadAll (some "4321")
        (some (some [("HDFCBANK", 2)], some ⟨some (some "2024-01-01T00:00:00.000Z"), some "9999"⟩))
        none none).2.pin = "4321" :=
  C4_env_pin_precedence "4321"
    (some (some [("HDFCBANK", 2)], some ⟨some (some "2024-01-01T00:00:00.000Z"), some "9999"⟩))
    none none

/-! ## On-disk layout (`saveToFile`, lines 832-848) -/

/-- A JSON document. -/
inductive Json where
  | jnull
  | jnum (q : ℚ)
  | jstr (s : String)
  | jobj (fields : List (String × Json))

def jsonOfOptStr : Option String → Json
  | none => .jnull
  | some s => .jstr s

/-- Serialization `JSON.stringify(stockMultipliers)`: one numeric field per
entry. -/
def multipliersJson (m : MultMap) : Json :=
  .jobj (m.map (fun p => (p.1, Json.jnum p.2)))

/-- Serialization `JSON.stringify(multipliersMetadata)` in insertion order: `lastSaved`
first, then `pin`. -/
def metadataJson (m : Metadata) : Json :=
  .jobj [("lastSaved", jsonOfOptStr m.lastSaved), ("pin", Json.jstr m.pin)]

/-- Local save `saveToFile`: stamp `lastSaved = now` and write the two documents
(`multipliers.json` and `metadata.json`).  Returns the updated in-memory
metadata and the two documents written. -/
def saveToFile (mults : MultMap) (meta : Metadata) (now : String) :
    Metadata × Json × Json :=
  let stamped : Metadata := { meta with lastSaved := some now }
  (stamped, multipliersJson mults, metadataJson stamped)

/-- JS property access on a parsed metadata document, restricted to the two
fields the load path consumes. -/
def metaDocOfJson : Json → MetaDoc
  | .jobj fs =>
      { lastSavedField :=
          match fs.lookup "lastSaved" with
          | some (.jstr s) => some (some s)
          | some _ => some none
          | none => none,
        pinField :=
          match fs.lookup "pin" with
          | some (.jstr s) => some s
          | _ => none }
  | _ => ⟨none, none⟩

def jsonKeys : Json → List String
  | .jobj fs => fs.map (·.1)
  | _ => []

def demoMults : MultMap := [("HDFCBANK", 2), ("ICICIBANK", (3 : ℚ) / 2)]

def demoMeta : Metadata := ⟨none, "1234"⟩

/-- Claim C3 counterexample: the metadata document actually written by
`saveToFile` keys its timestamp `lastSaved`, not `lastSavedAt`. -/
theorem C3_counterexample :
    jsonKeys (saveToFile demoMults demoMeta "2024-01-01T10:00:00.000Z").2.2
      = ["lastSaved", "pin"]
    ∧ "lastSavedAt" ∉ jsonKeys (saveToFile demoMults demoMeta "2024-01-01T10:00:00.000Z").2.2 := by
  decide

/-- Claim C3 (amended): `saveToFile` writes exactly two JSON documents, the
multiplier map `{SYMBOL: number}` and the metadata
`{lastSaved: ISO-8601 string, pin: string}` — the timestamp key is named
`lastSaved` — and the file-load path reads those two documents back,
restoring the same multipliers, timestamp and PIN. -/
theorem C3_persisted_layout (mults : MultMap) (meta : Metadata) (now : String) :
    (saveToFile mults meta now).2.1 = Json.jobj (mults.map fun p => (p.1, Json.jnum p.2))
    ∧ (saveToFile mults meta now).2.2
        = Json.jobj [("lastSaved", Json.jstr now), ("pin", Json.jstr meta.pin)]
    ∧ loadFromFile ([], ⟨none, "1234"⟩) none (some mults)
        (some (metaDocOfJson (saveToFile mults meta now).2.2))
        = (mults, ⟨some now, meta.pin⟩) := by
  refine ⟨rfl, rfl, ?_⟩
  rfl

/-! ## Single-multiplier update (PUT `/api/multipliers/:symbol`, lines 1640-1687) -/

inductive PutResult where
  | ok (symbol : String) (value : ℚ)
  | pinRequired
  | invalidPin
  | invalidValue
  deriving DecidableEq, Repr

/-- The PUT handler: `multiplier` is the request value after `parseFloat`
(`none` = NaN, i.e. non-numeric), `pin` the request PIN (`none` = absent).
Checks run in source order — missing or empty PIN, wrong PIN, invalid
value — and only then is the map mutated, at the uppercased symbol. -/
def putMultiplier (mults : MultMap) (storedPin : String) (symbol : String)
    (multiplier : Option ℚ) (pin : Option String) : PutResult × MultMap :=
  match pin with
  | none => (.pinRequired, mults)
  | some p =>
      if p = "" then (.pinRequired, mults)
      else if p ≠ storedPin then (.invalidPin, mults)
      else
        match multiplier with
        | none => (.invalidValue, mults)
        | some v =>
            if v < 0 then (.invalidValue, mults)
            else (.ok symbol.toUpper v, setA mults symbol.toUpper v)

/-- Claim C5: with a correct (non-empty) PIN and a value parsing to `v ≥ 0`
the handler sets the symbol's multiplier to exactly `v`; with a non-numeric
or negative value it signals an invalid value and leaves the map completely
unchanged; with a missing, empty or wrong PIN it signals an error and leaves
the map unchanged. -/
theorem C5_put_multiplier (mults : MultMap) (storedPin symbol : String)
    (multiplier : Option ℚ) (pin : Option String) :
    (∀ v, multiplier = some v → 0 ≤ v → pin = some storedPin → storedPin ≠ "" →
        putMultiplier mults storedPin symbol multiplier pin
          = (.ok symbol.toUpper v, setA mults symbol.toUpper v)
        ∧ (putMultiplier mults storedPin symbol multiplier pin).2.lookup symbol.toUpper
            = some v)
    ∧ (pin = some storedPin → storedPin ≠ "" →
        multiplier = none ∨ (∃ v, multiplier = some v ∧ v < 0) →
        putMultiplier mults storedPin symbol multiplier pin = (.invalidValue, mults))
    ∧ (pin = none ∨ pin = some "" ∨ (∃ p, pin = some p ∧ p ≠ storedPin) →
        (putMultiplier mults storedPin symbol multiplier pin).2 = mults
        ∧ ((putMultiplier mults storedPin symbol multiplier pin).1 = .pinRequired
            ∨ (putMultiplier mults storedPin symbol multiplier pin).1 = .invalidPin)) := by
  refine ⟨?_, ?_, ?_⟩
  · rintro v rfl hv rfl hne
    have hnv : ¬ v < 0 := not_lt.mpr hv
    constructor
    · simp [putMultiplier, hne, hnv]
    · simp [putMultiplier, hne, hnv, lookup_setA_self]
  · rintro rfl hne hbad
    rcases hbad with rfl | ⟨v, rfl, hv⟩
    · simp [putMultiplier, hne]
    · simp [putMultiplier, hne, hv]
  · rintro (rfl | rfl | ⟨p, rfl, hp⟩)
    · simp [putMultiplier]
    · simp [putMultiplier]
    · by_cases hpe : p = ""
      · subst hpe
        simp [putMultiplier]
      · simp [putMultiplier, hpe, hp]

/-- Claim C5 witness: with the correct PIN, setting `hdfcbank` to `3`
updates exactly that (uppercased) entry. -/
theorem C5_put_multiplier_witness :
    putMultiplier [("HDFCBANK", 2)] "1234" "hdfcbank" (some 3) (some "1234")
        = (.ok "hdfcbank".toUpper 3, setA [("HDFCBANK", 2)] "hdfcbank".toUpper 3)
    ∧ (putMultiplier [("HDFCBANK", 2)] "1234" "hdfcbank" (some 3) (some "1234")).2.lookup
        "hdfcbank".toUpper = some 3 :=
  (C5_put_multiplier [("HDFCBANK", 2)] "1234" "hdfcbank" (some 3) (some "1234")).1
    3 rfl (by norm_num) rfl (by decide)

/-! ## Quote data model -/

structure Constituent where
  symbol : String
  name : String
  deriving DecidableEq, Repr

/-- One entry of the price map built by `fetchNSEBankNiftyPrices`. -/
structure NsePrice where
  livePrice : JsVal
  previousClose : JsVal
  dayHigh : JsVal
  dayLow : JsVal
  volume : JsVal
  change : JsVal
  pChange : JsVal
  deriving DecidableEq, Repr

/-- The `meta` object of a Yahoo chart response. -/
structure YMeta where
  regularMarketPrice : JsVal
  chartPreviousClose : JsVal
  regularMarketDayHigh : JsVal
  regularMarketDayLow : JsVal
  regularMarketVolume : JsVal
  marketState : JsVal
  currency : JsVal
  deriving DecidableEq, Repr

/-- The supplementary data returned by `fetchNSEData` or its Yahoo
fallback (`issuedSize`, `marketCap`, 52-week range). -/
structure NseData where
  issuedSize : JsVal
  marketCap : JsVal
  fiftyTwoWeekHigh : JsVal
  fiftyTwoWeekLow : JsVal
  deriving DecidableEq, Repr

/-- The intermediate `priceData` object built per symbol. -/
structure PriceData where
  livePrice : JsVal
  previousClose : JsVal
  dayHigh : JsVal
  dayLow : JsVal
  volume : JsVal
  change : JsVal
  pChange : JsVal
  marketState : JsVal
  currency : JsVal
  deriving DecidableEq, Repr

/-- One merged per-symbol quote (the `data` object of
`fetchAllStocksBatched`). -/
structure Quote where
  symbol : String
  livePrice : JsVal
  previousClose : JsVal
  currency : JsVal
  marketState : JsVal
  dayHigh : JsVal
  dayLow : JsVal
  volume : JsVal
  issuedSize : JsVal
  marketCap : JsVal
  fiftyTwoWeekHigh : JsVal
  fiftyTwoWeekLow : JsVal
  lastUpdated : String
  deriving DecidableEq, Repr

abbrev Batch := List (String × Quote)

/-! ## Constituent refresh (`updateBankNiftyStocks`, lines 957-982) -/

/-- The refresh `updateBankNiftyStocks` given the authoritative list fetched from the
exchange (`none` when the fetch threw or failed its sanity check).  Returns
the active list, the updated multiplier map and the logged `added` and
`removed` observations. -/
def updateBankNiftyStocks (stocks : List Constituent) (m : MultMap)
    (fetched : Option (List Constituent)) :
    List Constituent × MultMap × List Constituent × List Constituent :=
  match fetched with
  | none => (stocks, m, [], [])
  | some constituents =>
      let currentSymbols := stocks.map (·.symbol)
      let newSymbols := constituents.map (·.symbol)
      let added := constituents.filter (fun s => !(currentSymbols.contains s.symbol))
      let removed := stocks.filter (fun s => !(newSymbols.contains s.symbol))
      let updated := constituents.foldl (fun acc c => ensureDefault acc c.symbol) m
      (stocks, updated, added, removed)

theorem refresh_defaults_lookup (stocks : List Constituent) (m : MultMap)
    (cs : List Constituent) (s : String) (hs : s ∈ cs.map (·.symbol))
    (h : truthyAt m s = false) :
    ((updateBankNiftyStocks stocks m (some cs)).2.1).lookup s = some 1 := by
  have hmain := lookup_ensureDefaults_of_mem (cs.map (·.symbol)) m s hs h
  rw [ensureDefaults, List.foldl_map] at hmain
  exact hmain

/-- Claim C9: for every authoritative membership list, the refresh leaves
the active constituent list (contents and order) unchanged — whether the
fetch succeeded or not — and every symbol of the authoritative list without
a multiplier entry receives a multiplier of exactly 1. -/
theorem C9_refresh_frame (stocks : List Constituent) (m : MultMap)
    (constituents : List Constituent) :
    (updateBankNiftyStocks stocks m (some constituents)).1 = stocks
    ∧ (updateBankNiftyStocks stocks m none).1 = stocks
    ∧ (∀ s, s ∈ constituents.map (·.symbol) → m.lookup s = none →
        ((updateBankNiftyStocks stocks m (some constituents)).2.1).lookup s = some 1) := by
  refine ⟨rfl, rfl, ?_⟩
  intro s hs hnone
  exact refresh_defaults_lookup stocks m constituents s hs (by simp [truthyAt, hnone])

def demoConstituents : List Constituent :=
  [⟨"HDFCBANK", "HDFC Bank"⟩, ⟨"NEWBANK", "New Bank"⟩]

theorem C9_refresh_frame_witness :
    (updateBankNiftyStocks [⟨"HDFCBANK", "HDFC Bank"⟩] [("HDFCBANK", 2)]
        (some demoConstituents)).1 = [⟨"HDFCBANK", "HDFC Bank"⟩]
    ∧ ((updateBankNiftyStocks [⟨"HDFCBANK", "HDFC Bank"⟩] [("HDFCBANK", 2)]
        (some demoConstituents)).2.1).lookup "NEWBANK" = some 1 := by
  refine ⟨(C9_refresh_frame [⟨"HDFCBANK", "HDFC Bank"⟩] [("HDFCBANK", 2)] demoConstituents).1, ?_⟩
  exact (C9_refresh_frame [⟨"HDFCBANK", "HDFC Bank"⟩] [("HDFCBANK", 2)] demoConstituents).2.2
    "NEWBANK" (by decide) (by decide)

/-! ## Startup default multipliers (lines 797-810) -/

/-- The symbol list `BUFFER_BANK_NIFTY_STOCKS` (lines 797-802). -/
def BUFFER_BANK_NIFTY_STOCKS : List String :=
  ["HDFCBANK", "ICICIBANK", "SBIN", "KOTAKBANK", "AXISBANK", "INDUSINDBK",
   "CANBK", "FEDERALBNK", "IDFCFIRSTB", "PNB", "BANKBARODA", "AUBANK",
   "UNIONBANK", "YESBANK", "BANDHANBNK"]

/-- Startup defaults `initializeDefaultMultipliers` (lines 804-810). -/
def initializeDefaultMultipliers (m : MultMap) : MultMap :=
  ensureDefaults m BUFFER_BANK_NIFTY_STOCKS

/-! ## Effective multiplier and its consumers -/

/-- The effective multiplier `stockMultipliers[sym] || 1` on the
numeric-valued multiplier map. -/
def effMultiplier (m : MultMap) (sym : String) : ℚ :=
  match m.lookup sym with
  | some q => if q = 0 then 1 else q
  | none => 1

/-- JS addition on the values occurring in the totalling loop (`null → 0`,
`undefined`/`NaN` → NaN; numeric strings do not occur there). -/
def jsAdd (a b : JsVal) : JsVal :=
  match a.toNum, b.toNum with
  | some x, some y => .num (x + y)
  | _, _ => .nan

/-- One row of GET `/api/stocks` on the batched path:
`{ ...stock, ...(batchedData[stock.symbol] || {}),
multiplier: stockMultipliers[stock.symbol] || 1 }`. -/
structure StockRow where
  constituent : Constituent
  quote : Option Quote
  multiplier : ℚ
  deriving DecidableEq, Repr

def apiStocksRows (stocks : List Constituent) (batch : Batch) (m : MultMap) :
    List StockRow :=
  stocks.map (fun st => ⟨st, batch.lookup st.symbol, effMultiplier m st.symbol⟩)

/-- One step of the `calculatedTotal` loop of `logHistoricalData`
(lines 1039-1047): a symbol whose quote is missing or whose live price is
falsy contributes nothing, the others contribute
`livePrice * (stockMultipliers[sym] || 1)`. -/
def totalStep (batch : Batch) (m : MultMap) (total : JsVal) (st : Constituent) : JsVal :=
  match batch.lookup st.symbol with
  | some q =>
      if q.livePrice.truthy then
        jsAdd total (jsMul q.livePrice (.num (effMultiplier m st.symbol)))
      else total
  | none => total

def computedTotal (stocks : List Constituent) (batch : Batch) (m : MultMap) : JsVal :=
  stocks.foldl (totalStep batch m) (.num 0)

/-- Remove a key from a modelled JS object (used only to compare a stored
`0` against a genuinely absent entry). -/
def eraseKey (m : MultMap) (k : String) : MultMap := m.filter (fun p => p.1 != k)

theorem lookup_eraseKey_self (m : MultMap) (s : String) :
    (eraseKey m s).lookup s = none := by
  induction m with
  | nil => rfl
  | cons p m ih =>
      obtain ⟨k1, v1⟩ := p
      by_cases hp : k1 = s
      · have h1 : eraseKey ((k1, v1) :: m) s = eraseKey m s :=
          List.filter_cons_of_neg (by simp [bne, hp])
        rw [h1]
        exact ih
      · have h1 : eraseKey ((k1, v1) :: m) s = (k1, v1) :: eraseKey m s :=
          List.filter_cons_of_pos (by simp [bne, hp])
        rw [h1]
        have hb : (s == k1) = false := by
          simp [beq_iff_eq]
          exact fun hh => hp hh.symm
        simp only [List.lookup, hb]
        exact ih

theorem lookup_eraseKey_ne (m : MultMap) (k s : String) (h : s ≠ k) :
    (eraseKey m k).lookup s = m.lookup s := by
  induction m with
  | nil => rfl
  | cons p m ih =>
      obtain ⟨k1, v1⟩ := p
      by_cases hp : k1 = k
      · have h1 : eraseKey ((k1, v1) :: m) k = eraseKey m k :=
          List.filter_cons_of_neg (by simp [bne, hp])
        rw [h1]
        have hb : (s == k1) = false := by simp [beq_iff_eq, hp, h]
        simp only [List.lookup, hb]
        exact ih
      · have h1 : eraseKey ((k1, v1) :: m) k = (k1, v1) :: eraseKey m k :=
          List.filter_cons_of_pos (by simp [bne, hp])
        rw [h1]
        by_cases hs : s = k1
        · simp [List.lookup, hs]
        · have hb : (s == k1) = false := by simp [beq_iff_eq, hs]
          simp only [List.lookup, hb]
          exact ih

theorem computedTotal_congr (stocks : List Constituent) (batch : Batch)
    (m m' : MultMap)
    (h : ∀ st ∈ stocks, effMultiplier m st.symbol = effMultiplier m' st.symbol) :
    computedTotal stocks batch m = computedTotal stocks batch m' := by
  unfold computedTotal
  suffices haux : ∀ init : JsVal,
      stocks.foldl (totalStep batch m) init = stocks.foldl (totalStep batch m') init from
    haux (.num 0)
  induction stocks with
  | nil => intro init; rfl
  | cons st stocks ih =>
      intro init
      have hst : effMultiplier m st.symbol = effMultiplier m' st.symbol :=
        h st (List.mem_cons_self st stocks)
      have hstep : totalStep batch m init st = totalStep batch m' init st := by
        unfold totalStep
        rw [hst]
      simp only [List.foldl_cons, hstep]
      exact ih (fun st' hst' => h st' (List.mem_cons_of_mem st hst')) _

/-- Claim C10: a stored multiplier of exactly `0` — which the PUT handler
accepts as valid — is indistinguishable from an absent entry at the public
interface: the stocks listing reports multiplier `1` for that symbol, the
historical computed total equals the total with the entry absent, and both
startup default-initialization and constituent refresh overwrite the stored
`0` with `1`. -/
theorem C10_zero_multiplier (m : MultMap) (s : String) (stocks : List Constituent)
    (batch : Batch) (storedPin : String) (cs : List Constituent) :
    m.lookup s = some 0 →
    (effMultiplier m s = 1
     ∧ (∀ row ∈ apiStocksRows stocks batch m, row.constituent.symbol = s →
          row.multiplier = 1)
     ∧ computedTotal stocks batch m = computedTotal stocks batch (eraseKey m s)
     ∧ (s ∈ BUFFER_BANK_NIFTY_STOCKS →
          (initializeDefaultMultipliers m).lookup s = some 1)
     ∧ (s ∈ cs.map (·.symbol) →
          ((updateBankNiftyStocks stocks m (some cs)).2.1).lookup s = some 1)
     ∧ (storedPin ≠ "" →
          putMultiplier m storedPin s (some 0) (some storedPin)
            = (.ok s.toUpper 0, setA m s.toUpper 0))) := by
  intro hzero
  have heff : effMultiplier m s = 1 := by simp [effMultiplier, hzero]
  have htruthy : truthyAt m s = false := by simp [truthyAt, hzero]
  refine ⟨heff, ?_, ?_, ?_, ?_, ?_⟩
  · intro row hrow hsym
    unfold apiStocksRows at hrow
    obtain ⟨st, _, rfl⟩ := List.mem_map.mp hrow
    have hsym' : st.symbol = s := hsym
    show effMultiplier m st.symbol = 1
    rw [hsym']
    exact heff
  · apply computedTotal_congr
    intro st _
    by_cases hst : st.symbol = s
    · rw [hst, heff]
      simp [effMultiplier, lookup_eraseKey_self]
    · simp [effMultiplier, lookup_eraseKey_ne m s st.symbol hst]
  · intro hmem
    exact lookup_ensureDefaults_of_mem BUFFER_BANK_NIFTY_STOCKS m s hmem htruthy
  · intro hmem
    exact refresh_defaults_lookup stocks m cs s hmem htruthy
  · intro hpin
    have h0 : ¬ (0 : ℚ) < 0 := lt_irrefl 0
    simp [putMultiplier, hpin, h0]

theorem C10_zero_multiplier_witness :
    effMultiplier [("YESBANK", 0)] "YESBANK" = 1
    ∧ (initializeDefaultMultipliers [("YESBANK", 0)]).lookup "YESBANK" = some 1
    ∧ putMultiplier [("YESBANK", 0)] "1234" "YESBANK" (some 0) (some "1234")
        = (.ok "YESBANK".toUpper 0, setA [("YESBANK", 0)] "YESBANK".toUpper 0) := by
  have h := C10_zero_multiplier [("YESBANK", 0)] "YESBANK" [] [] "1234" [] rfl
  exact ⟨h.1, h.2.2.2.1 (by decide), h.2.2.2.2.2 (by decide)⟩

/-! ## Batched quote fetch (`fetchAllStocksBatched`, lines 1293-1402) -/

/-- Static table `ISSUED_SIZE_FALLBACK` (lines 664-681): shares-outstanding
table; absent symbols give `undefined`. -/
def ISSUED_SIZE_FALLBACK : String → JsVal
  | "HDFCBANK" => .num 15382510606
  | "ICICIBANK" => .num 7150095682
  | "AXISBANK" => .num 3104242612
  | "SBIN" => .num 9230617586
  | "KOTAKBANK" => .num 1988752989
  | "FEDERALBNK" => .num 2462735490
  | "INDUSINDBK" => .num 779075972
  | "IDFCFIRSTB" => .num 8594892611
  | "BANKBARODA" => .num 5171362179
  | "CANBK" => .num 9070651260
  | "PNB" => .num 11492943268
  | "AUBANK" => .num 746660086
  | "UNIONBANK" => .num 8567909020
  | "YESBANK" => .num 31411179264
  | _ => .undefined

/-- Optional-chaining field access `nseData?.f`. -/
def jfield (o : Option NseData) (f : NseData → JsVal) : JsVal :=
  match o with
  | none => .undefined
  | some d => f d

/-- Outcomes of the upstream calls made during one batched fetch.  `none`
models a request that threw or returned no usable payload. -/
structure FetchEnv where
  nsePrices : Option (List (String × NsePrice))
  yahooChart : String → Option YMeta
  nseData : String → Option NseData
  now : String

/-- The per-symbol body of `fetchAllStocksBatched`'s `Promise.all` map:
price-source selection (bulk NSE entry when it covered the symbol,
otherwise the Yahoo chart endpoint), supplementary lookup and merge.
`none` is the `catch` path (`data: null`): the Yahoo price request threw or
returned no `meta`.  Note the `marketCap` field: in
`nseData?.marketCap || (livePrice && issuedSize) ? product : null` the `||`
binds into the ternary's condition, so the whole expression is
`(supplied || operands) ? product : null`. -/
def fetchOneStock (env : FetchEnv) (sym : String) : Option Quote :=
  let nsePrice : Option NsePrice :=
    match env.nsePrices with
    | none => none
    | some priceMap => priceMap.lookup sym
  let priceData : Option PriceData :=
    match nsePrice with
    | some p =>
        some { livePrice := p.livePrice, previousClose := p.previousClose,
               dayHigh := p.dayHigh, dayLow := p.dayLow, volume := p.volume,
               change := p.change, pChange := p.pChange,
               marketState := .str "REGULAR", currency := .str "INR" }
    | none =>
        match env.yahooChart sym with
        | none => none
        | some meta =>
            some { livePrice := meta.regularMarketPrice,
                   previousClose := meta.chartPreviousClose,
                   dayHigh := meta.regularMarketDayHigh,
                   dayLow := meta.regularMarketDayLow,
                   volume := meta.regularMarketVolume,
                   change := .undefined, pChange := .undefined,
                   marketState := meta.marketState,
                   currency := jsOr meta.currency (.str "INR") }
  match priceData with
  | none => none
  | some pd =>
      let nse := env.nseData sym
      let issuedChain := jsOr (jfield nse NseData.issuedSize) (ISSUED_SIZE_FALLBACK sym)
      some { symbol := sym,
             livePrice := jsOr pd.livePrice .null,
             previousClose := jsOr pd.previousClose .null,
             currency := jsOr pd.currency (.str "INR"),
             marketState := pd.marketState,
             dayHigh := jsOr pd.dayHigh .null,
             dayLow := jsOr pd.dayLow .null,
             volume := jsOr pd.volume .null,
             issuedSize := jsOr issuedChain .null,
             marketCap :=
               if (jsOr (jfield nse NseData.marketCap) (jsAnd pd.livePrice issuedChain)).truthy
               then jsMul issuedChain pd.livePrice
               else .null,
             fiftyTwoWeekHigh := jsOr (jfield nse NseData.fiftyTwoWeekHigh) .null,
             fiftyTwoWeekLow := jsOr (jfield nse NseData.fiftyTwoWeekLow) .null,
             lastUpdated := env.now }

/-- The accumulation loop
`results.forEach(r => { if (r.data) stockDataMap[r.symbol] = r.data })`. -/
def buildBatch (results : List (String × Option Quote)) (acc : Batch) : Batch :=
  match results with
  | [] => acc
  | (sym, d) :: rest =>
      match d with
      | some q => buildBatch rest (setA acc sym q)
      | none => buildBatch rest acc

/-- The batched fetch `fetchAllStocksBatched` with an explicit whole-batch
cache cell
(the `all_stocks_batch` key of the short-TTL cache).  Returns the function's
result and the cache cell afterwards. -/
def fetchAllStocksBatched (stocks : List Constituent) (env : FetchEnv)
    (cached : Option Batch) : Option Batch × Option Batch :=
  match cached with
  | some b => (some b, some b)
  | none =>
      let results := stocks.map (fun st => (st.symbol, fetchOneStock env st.symbol))
      let stockDataMap := buildBatch results []
      if 0 < stockDataMap.length then (some stockDataMap, some stockDataMap)
      else (none, none)

theorem setA_append_of_fresh {α : Type} (acc : List (String × α)) (sym : String) (v : α)
    (h : ∀ e ∈ acc, sym ≠ e.1) : setA acc sym v = acc ++ [(sym, v)] := by
  induction acc with
  | nil => rfl
  | cons e acc ih =>
      have hne : e.1 ≠ sym := fun hh => h e (List.mem_cons_self e acc) hh.symm
      show (if e.1 = sym then (sym, v) :: acc else e :: setA acc sym v) = e :: (acc ++ [(sym, v)])
      rw [if_neg hne, ih (fun e' he' => h e' (List.mem_cons_of_mem e he'))]

theorem buildBatch_none (results : List (String × Option Quote)) (acc : Batch)
    (h : ∀ r ∈ results, r.2 = none) : buildBatch results acc = acc := by
  induction results generalizing acc with
  | nil => rfl
  | cons r rest ih =>
      obtain ⟨sym, d⟩ := r
      have hd : d = none := h (sym, d) (List.mem_cons_self _ _)
      subst hd
      exact ih acc (fun r hr => h r (List.mem_cons_of_mem _ hr))

theorem buildBatch_keys (results : List (String × Option Quote)) (acc : Batch)
    (hfresh : ∀ r ∈ results, ∀ e ∈ acc, r.1 ≠ e.1)
    (hnd : (results.map Prod.fst).Nodup) :
    (buildBatch results acc).map Prod.fst
      = acc.map Prod.fst ++ (results.filter (fun r => r.2.isSome)).map Prod.fst := by
  induction results generalizing acc with
  | nil => simp [buildBatch]
  | cons r rest ih =>
      obtain ⟨sym, d⟩ := r
      simp only [List.map_cons] at hnd
      have hnd' : (rest.map Prod.fst).Nodup := (List.nodup_cons.mp hnd).2
      have hsym : sym ∉ rest.map Prod.fst := (List.nodup_cons.mp hnd).1
      cases d with
      | none =>
          show (buildBatch rest acc).map Prod.fst = _
          rw [ih acc (fun r hr e he => hfresh r (List.mem_cons_of_mem _ hr) e he) hnd']
          simp [List.filter_cons]
      | some q =>
          show (buildBatch rest (setA acc sym q)).map Prod.fst = _
          have hset : setA acc sym q = acc ++ [(sym, q)] :=
            setA_append_of_fresh acc sym q
              (fun e he => hfresh (sym, some q) (List.mem_cons_self _ _) e he)
          have hfresh' : ∀ r ∈ rest, ∀ e ∈ acc ++ [(sym, q)], r.1 ≠ e.1 := by
            intro r hr e he
            rcases List.mem_append.mp he with he | he
            · exact hfresh r (List.mem_cons_of_mem _ hr) e he
            · have heq : e = (sym, q) := by simpa using he
              subst heq
              intro hq
              have hq' : r.1 = sym := hq
              exact hsym (hq' ▸ List.mem_map_of_mem Prod.fst hr)
          rw [hset, ih (acc ++ [(sym, q)]) hfresh' hnd']
          simp [List.filter_cons]

theorem results_filter_keys (env : FetchEnv) (stocks : List Constituent) :
    (((stocks.map (fun st => (st.symbol, fetchOneStock env st.symbol))).filter
        (fun r => r.2.isSome)).map Prod.fst)
      = (stocks.filter (fun st => (fetchOneStock env st.symbol).isSome)).map (·.symbol) := by
  induction stocks with
  | nil => rfl
  | cons st stocks ih =>
      cases h : (fetchOneStock env st.symbol).isSome with
      | true => simp [List.filter_cons, h, ih]
      | false => simp [List.filter_cons, h, ih]

/-- Claim C1 (amended): with a cold cache, and assuming distinct constituent
symbols (true of every list the server uses), the batched fetch either
returns `Unavailable` — exactly when every symbol's per-symbol fetch
failed — or returns a non-empty batch whose key list is the sub-list of
constituent symbols whose per-symbol fetch succeeded.  A symbol with no
usable price from either source is dropped from the batch rather than kept
with a null price, so the key set can be a strict non-empty subset of the
constituent set. -/
theorem C1_batch_key_set (stocks : List Constituent) (env : FetchEnv)
    (hnd : (stocks.map (·.symbol)).Nodup) :
    ((fetchAllStocksBatched stocks env none).1 = none ↔
        ∀ st ∈ stocks, fetchOneStock env st.symbol = none)
    ∧ (∀ b, (fetchAllStocksBatched stocks env none).1 = some b →
        b ≠ []
        ∧ b.map Prod.fst
            = (stocks.filter (fun st => (fetchOneStock env st.symbol).isSome)).map (·.symbol)) := by
  have hmapnd :
      ((stocks.map (fun st => (st.symbol, fetchOneStock env st.symbol))).map Prod.fst).Nodup := by
    simpa [List.map_map, Function.comp] using hnd
  have hkeys :
      (buildBatch (stocks.map (fun st => (st.symbol, fetchOneStock env st.symbol))) []).map Prod.fst
        = (stocks.filter (fun st => (fetchOneStock env st.symbol).isSome)).map (·.symbol) := by
    rw [buildBatch_keys _ [] (fun r _ e he => absurd he (List.not_mem_nil e)) hmapnd]
    simpa using results_filter_keys env stocks
  set bm := buildBatch (stocks.map (fun st => (st.symbol, fetchOneStock env st.symbol))) [] with hbm
  constructor
  · constructor
    · intro hres
      by_cases hlen : 0 < bm.length
      · exfalso
        have hsome : (fetchAllStocksBatched stocks env none).1 = some bm := by
          simp [fetchAllStocksBatched, ← hbm, hlen]
        rw [hsome] at hres
        cases hres
      · have hbmnil : bm = [] := by
          cases hx : bm with
          | nil => rfl
          | cons a l => rw [hx] at hlen; simp at hlen
        have hkeysnil :
            (stocks.filter (fun st => (fetchOneStock env st.symbol).isSome)).map (·.symbol) = [] := by
          rw [← hkeys, hbmnil]
          rfl
        have hfilter : stocks.filter (fun st => (fetchOneStock env st.symbol).isSome) = [] :=
          List.map_eq_nil_iff.mp hkeysnil
        intro st hst
        cases ho : fetchOneStock env st.symbol with
        | none => rfl
        | some q =>
            exfalso
            have hc : (fetchOneStock env st.symbol).isSome = true := by rw [ho]; rfl
            have hmem : st ∈ stocks.filter (fun st => (fetchOneStock env st.symbol).isSome) :=
              List.mem_filter.mpr ⟨hst, hc⟩
            rw [hfilter] at hmem
            cases hmem
    · intro hall
      have hbmnil : bm = [] := by
        rw [hbm]
        apply buildBatch_none
        intro r hr
        obtain ⟨st, hst, rfl⟩ := List.mem_map.mp hr
        exact hall st hst
      simp [fetchAllStocksBatched, ← hbm, hbmnil]
  · intro b hb
    by_cases hlen : 0 < bm.length
    · have hsome : (fetchAllStocksBatched stocks env none).1 = some bm := by
        simp [fetchAllStocksBatched, ← hbm, hlen]
      rw [hsome] at hb
      injection hb with hb
      subst hb
      refine ⟨?_, hkeys⟩
      intro hnil
      rw [hnil] at hlen
      simp at hlen
    · have hnone : (fetchAllStocksBatched stocks env none).1 = none := by
        simp [fetchAllStocksBatched, ← hbm, hlen]
      rw [hnone] at hb
      cases hb

def demoStocks : List Constituent :=
  [⟨"HDFCBANK", "HDFC Bank"⟩, ⟨"ICICIBANK", "ICICI Bank"⟩]

/-- An environment where HDFCBANK is covered by the bulk NSE price map
(live price 100) while every other upstream call fails. -/
def envC1 : FetchEnv :=
  { nsePrices := some [("HDFCBANK",
      ⟨.num 100, .num 99, .num 101, .num 98, .num 1000000, .num 1, .num 1⟩)],
    yahooChart := fun _ => none,
    nseData := fun _ => none,
    now := "2024-01-01T10:00:00.000Z" }

/-- An environment where every upstream call fails. -/
def envFail : FetchEnv :=
  { nsePrices := none, yahooChart := fun _ => none, nseData := fun _ => none,
    now := "2024-01-01T10:00:00.000Z" }

/-- The merged quote `fetchAllStocksBatched` builds for HDFCBANK under
`envC1` (live price 100, issued size from the static fallback table). -/
def demoQuoteHDFC : Quote :=
  { symbol := "HDFCBANK", livePrice := .num 100, previousClose := .num 99,
    currency := .str "INR", marketState := .str "REGULAR",
    dayHigh := .num 101, dayLow := .num 98, volume := .num 1000000,
    issuedSize := .num 15382510606, marketCap := .num (15382510606 * 100),
    fiftyTwoWeekHigh := .null, fiftyTwoWeekLow := .null,
    lastUpdated := "2024-01-01T10:00:00.000Z" }

/-- Claim C1 counterexample: constituents `[HDFCBANK, ICICIBANK]` where
HDFCBANK's bulk price succeeds (100) and both of ICICIBANK's price sources
fail.  The batch returned is neither `Unavailable` nor keyed by the whole
constituent set: its key set `{HDFCBANK}` is a strict non-empty subset —
ICICIBANK is dropped, not present with a null `livePrice`. -/
theorem C1_counterexample :
    ((fetchAllStocksBatched demoStocks envC1 none).1).isSome = true
    ∧ Option.map (fun b => b.map Prod.fst) (fetchAllStocksBatched demoStocks envC1 none).1
        = some ["HDFCBANK"]
    ∧ "ICICIBANK" ∈ demoStocks.map (·.symbol)
    ∧ "ICICIBANK" ∉ ["HDFCBANK"] := by
  decide

theorem C1_batch_key_set_witness :
    (fetchAllStocksBatched demoStocks envFail none).1 = none
    ∧ [("HDFCBANK", demoQuoteHDFC)].map Prod.fst
        = (demoStocks.filter (fun st => (fetchOneStock envC1 st.symbol).isSome)).map (·.symbol) := by
  constructor
  · exact (C1_batch_key_set demoStocks envFail (by decide)).1.mpr (by decide)
  · exact ((C1_batch_key_set demoStocks envC1 (by decide)).2
      [("HDFCBANK", demoQuoteHDFC)] rfl).2

/-- Claim C7: the batched fetch populates the whole-batch cache only when at
least one symbol succeeded: when every symbol fails it returns `Unavailable`
and the cold cache stays empty (no negative caching, so the next request
retries immediately); when some symbol succeeds the returned batch is
exactly what is cached; a cache hit returns the cached batch unchanged. -/
theorem C7_no_negative_caching (stocks : List Constituent) (env : FetchEnv) :
    ((∀ st ∈ stocks, fetchOneStock env st.symbol = none) →
        fetchAllStocksBatched stocks env none = (none, none))
    ∧ (∀ b, (fetchAllStocksBatched stocks env none).1 = some b →
        (fetchAllStocksBatched stocks env none).2 = some b)
    ∧ (∀ b0, fetchAllStocksBatched stocks env (some b0) = (some b0, some b0)) := by
  refine ⟨?_, ?_, fun b0 => rfl⟩
  · intro hall
    have hbmnil :
        buildBatch (stocks.map (fun st => (st.symbol, fetchOneStock env st.symbol))) [] = [] := by
      apply buildBatch_none
      intro r hr
      obtain ⟨st, hst, rfl⟩ := List.mem_map.mp hr
      exact hall st hst
    simp [fetchAllStocksBatched, hbmnil]
  · intro b hb
    set bm := buildBatch (stocks.map (fun st => (st.symbol, fetchOneStock env st.symbol))) []
      with hbm
    by_cases hlen : 0 < bm.length
    · have hsome : fetchAllStocksBatched stocks env none = (some bm, some bm) := by
        simp [fetchAllStocksBatched, ← hbm, hlen]
      rw [hsome] at hb ⊢
      simpa using hb
    · have hnone : (fetchAllStocksBatched stocks env none).1 = none := by
        simp [fetchAllStocksBatched, ← hbm, hlen]
      rw [hnone] at hb
      cases hb

theorem C7_no_negative_caching_witness :
    fetchAllStocksBatched demoStocks envFail none = (none, none)
    ∧ (fetchAllStocksBatched demoStocks envC1 none).2 = some [("HDFCBANK", demoQuoteHDFC)]
    ∧ fetchAllStocksBatched demoStocks envFail (some [("HDFCBANK", demoQuoteHDFC)])
        = (some [("HDFCBANK", demoQuoteHDFC)], some [("HDFCBANK", demoQuoteHDFC)]) := by
  refine ⟨(C7_no_negative_caching demoStocks envFail).1 (by decide), ?_,
    (C7_no_negative_caching demoStocks envFail).2.2 [("HDFCBANK", demoQuoteHDFC)]⟩
  exact (C7_no_negative_caching demoStocks envC1).2.1 [("HDFCBANK", demoQuoteHDFC)] rfl

/-- An environment whose supplementary lookup supplies a market cap
directly (500) together with an issued size (10), for a symbol priced 100
by the bulk source and absent from the static fallback table. -/
def envC2 : FetchEnv :=
  { nsePrices := some [("TESTX",
      ⟨.num 100, .num 99, .num 101, .num 98, .num 5000, .num 1, .num 1⟩)],
    yahooChart := fun _ => none,
    nseData := fun _ => some ⟨.num 10, .num 500, .null, .null⟩,
    now := "2024-01-01T10:00:00.000Z" }

/-- Claim C2 (code bug): when the supplementary source supplies a market
cap directly (500), the merged quote's `marketCap` is the recomputed
product `issuedSize × livePrice = 10 × 100 = 1000`, not the directly
supplied 500: in `nseData?.marketCap || (livePrice && issuedSize) ?
product : null` the `||` binds into the ternary's condition, so the
supplied value is only ever used as a boolean, never as the result. -/
theorem C2_market_cap_precedence_bug :
    Option.map Quote.marketCap (fetchOneStock envC2 "TESTX") = some (JsVal.num 1000)
    ∧ jfield (envC2.nseData "TESTX") NseData.marketCap = JsVal.num 500
    ∧ JsVal.num 1000 ≠ JsVal.num 500 := by
  refine ⟨?_, rfl, ?_⟩
  · have h1 : Option.map Quote.marketCap (fetchOneStock envC2 "TESTX")
        = some (JsVal.num (10 * 100)) := rfl
    rw [h1]
    norm_num
  · intro h
    injection h with h'
    exact absurd h' (by norm_num)

end BankNifty
